import Mathlib

/-!
Verification development for the `shapdf` shape-to-PDF generator.

The Rust sources are embedded shallowly:

* `src/units.rs` — the `Length`, `Angle` and `Color` quantities become
  inductive types over `ℝ` (the `f64` values are modelled as real numbers;
  floating-point rounding is outside the scope of the statements proved here).
* `src/shapes.rs` — `CapType`, `ShapeType`, `Shape` and `Shape::draw`.
  The process-wide mutable default-style statics (`DEFAULT_WIDTH`,
  `DEFAULT_CAP_TYPE`, `DEFAULT_COLOR`, `DEFAULT_ANGLE`) are modelled as an
  explicit `StyleDefaults` state passed to `Shape.draw`; the `set_default_*`
  associated functions become state transformers.  A Rust panic (a failing
  `unwrap` or an out-of-bounds index) is modelled by `Option`: `draw`
  returns `none` exactly when the Rust code panics.
* `src/generator.rs` — the `Generator` struct with its two buffers, offset
  table, page list and finalisation.  Buffers are `List Char`; the numeric
  text produced by `format!` for `f64` values is irrelevant to the
  structural claims and enters the byte-level model as opaque byte strings,
  while the drawing-operator methods are additionally modelled at the
  operator level (`Op`), one constructor per PDF operator emitted.
-/

namespace Shapdf

/-! ### Byte strings -/

/-- Byte buffers (`Vec<u8>` / `String` holding ASCII text) are modelled as
lists of characters. -/
abbrev Bytes := List Char

/-- The character data of a string literal. -/
def str (s : String) : Bytes := s.data

/-! ### `src/units.rs` -/

/-- The four length structs `Mm`, `Cm`, `Inch`, `Pt` implementing the
`Length` trait, folded into one inductive type (the set of implementors is
closed in the source). -/
inductive Length where
  | Mm (v : ℝ)
  | Cm (v : ℝ)
  | Inch (v : ℝ)
  | Pt (v : ℝ)

/-- `Length::to_points`, with the per-unit multipliers of `src/units.rs`. -/
def Length.to_points : Length → ℝ
  | .Mm v => v * 2.83464566929
  | .Cm v => v * 28.3464566929
  | .Inch v => v * 72.0
  | .Pt v => v

/-- The `Mul<f64>` impl (`impl_mul_f64!`): scalar multiplication of the
inner value, staying in the same unit. -/
def Length.mul : Length → ℝ → Length
  | .Mm v, k => .Mm (v * k)
  | .Cm v, k => .Cm (v * k)
  | .Inch v, k => .Inch (v * k)
  | .Pt v, k => .Pt (v * k)

/-- The two angle structs `Degree` and `Radian` implementing the `Angle`
trait. -/
inductive Angle where
  | Degree (v : ℝ)
  | Radian (v : ℝ)

/-- `Angle::to_radians` (Rust `f64::to_radians` is `self * (π / 180)`). -/
noncomputable def Angle.to_radians : Angle → ℝ
  | .Degree v => v * (Real.pi / 180)
  | .Radian v => v

/-- `Angle::to_degrees` (Rust `f64::to_degrees` is `self * (180 / π)`). -/
noncomputable def Angle.to_degrees : Angle → ℝ
  | .Degree v => v
  | .Radian v => v * (180 / Real.pi)

/-- The color structs `Rgb` (normalized triple), `RGB` (8-bit channels,
modelled as naturals) and `Gray` of `src/units.rs`. -/
inductive Color where
  | Rgb (r g b : ℝ)
  | RGB (r g b : ℕ)
  | Gray (v : ℝ)

/-- `Color::to_rgb` for the three implementors in `src/units.rs`. -/
noncomputable def Color.to_rgb : Color → ℝ × ℝ × ℝ
  | .Rgb r g b => (r, g, b)
  | .RGB r g b => ((r : ℝ) / 255, (g : ℝ) / 255, (b : ℝ) / 255)
  | .Gray v => (v, v, v)

/-- Modelled from the spec: the named-color table (`NamedColor`) is not in a
file under `src/`; only the entry used by `shapes.rs` is needed, the name
"black", which resolves to the normalized triple `(0, 0, 0)`. -/
def black_rgb : ℝ × ℝ × ℝ := (0, 0, 0)

/-! ### `src/shapes.rs` -/

/-- Line cap styles. -/
inductive CapType where
  | Butt
  | Round
  | Square
deriving DecidableEq

/-- `CapType::to_int`. -/
def CapType.to_int : CapType → ℤ
  | .Butt => 0
  | .Round => 1
  | .Square => 2

/-- The shape kind enumeration, `Unknown` being the `Default`. -/
inductive ShapeType where
  | Line
  | Circle
  | Rectangle
  | Polygon
  | Unknown
deriving DecidableEq

/-- The builder-style `Shape` struct.  The borrowed content stream
`Option<&mut Vec<u8>>` is modelled by a flag saying whether a content
stream is attached; the bytes `draw` would append are returned instead. -/
structure Shape where
  enum_type : ShapeType
  content_stream : Bool
  x : List ℝ
  y : List ℝ
  width : Option ℝ
  height : Option ℝ
  radius : Option ℝ
  angle : Option ℝ
  cap_type : Option CapType
  color : Option (ℝ × ℝ × ℝ)

/-- One PDF content-stream operator line, one constructor per `format!`
fragment emitted by the source:
`RG r g b` ↦ "r g b RG\n", `setWidth w` ↦ "w w\n", `setCap j` ↦ "j J\n",
`moveto x y` ↦ "x y m\n", `lineto x y` ↦ "x y l\n", `stroke` ↦ "S\n",
`cm a b c d e f` ↦ "a b c d e f cm\n", `re x y w h` ↦ "x y w h re f\n",
`closeFill` ↦ "h f\n". -/
inductive Op where
  | RG (r g b : ℝ)
  | setWidth (w : ℝ)
  | setCap (j : ℤ)
  | moveto (x y : ℝ)
  | lineto (x y : ℝ)
  | stroke
  | cm (a b c d e f : ℝ)
  | re (x y w h : ℝ)
  | closeFill

/-- The four process-wide default-style statics of `src/shapes.rs`
(`DEFAULT_WIDTH`, `DEFAULT_CAP_TYPE`, `DEFAULT_COLOR`, `DEFAULT_ANGLE`),
gathered into one explicit state value. -/
structure StyleDefaults where
  width : ℝ
  cap_type : CapType
  color : ℝ × ℝ × ℝ
  angle : ℝ

/-- The `Lazy` initializers of the four statics: `Pt(1.).to_points()`,
`CapType::Butt`, `NamedColor("black").to_rgb()`, `Degree(0.).to_degrees()`. -/
noncomputable def initial_defaults : StyleDefaults :=
  { width := (Length.Pt 1).to_points
    cap_type := CapType.Butt
    color := black_rgb
    angle := (Angle.Degree 0).to_degrees }

/-- `Shape::set_default_width`: in the source a mutation of the
process-wide `DEFAULT_WIDTH` static, modelled as a state transformer. -/
def Shape.set_default_width (d : StyleDefaults) (width : Length) : StyleDefaults :=
  { d with width := width.to_points }

/-- `Shape::set_default_cap_type`, as a state transformer. -/
def Shape.set_default_cap_type (d : StyleDefaults) (cap_type : CapType) : StyleDefaults :=
  { d with cap_type := cap_type }

/-- `Shape::set_default_color`, as a state transformer. -/
noncomputable def Shape.set_default_color (d : StyleDefaults) (color : Color) : StyleDefaults :=
  { d with color := color.to_rgb }

/-- `Shape::draw`.  With no content stream attached the source does nothing
(`if let Some(content) = ...`), modelled as `some []`.  Otherwise the
emitted operator lines are returned; a panic (`unwrap` on `None`, or an
out-of-bounds `self.x[i]` / `self.y[i]` index) yields `none`.  The source
writes the `RG` line before matching on the kind, so a panicking call has
already pushed that line; since a Rust panic aborts the rendering, the
partially written bytes are not modelled. -/
noncomputable def Shape.draw (s : Shape) (d : StyleDefaults) : Option (List Op) :=
  if s.content_stream then
    let rgb := s.color.getD d.color
    let width := s.width.getD d.width
    let cap := (s.cap_type.getD d.cap_type).to_int
    match s.enum_type with
    | .Line => do
        let x0 ← s.x[0]?
        let y0 ← s.y[0]?
        let x1 ← s.x[1]?
        let y1 ← s.y[1]?
        some [.RG rgb.1 rgb.2.1 rgb.2.2, .setWidth width, .setCap cap,
              .moveto x0 y0, .lineto x1 y1, .stroke]
    | .Circle => do
        let r ← s.radius
        let x0 ← s.x[0]?
        let y0 ← s.y[0]?
        some [.RG rgb.1 rgb.2.1 rgb.2.2, .setWidth (r * 2), .setCap 1,
              .moveto x0 y0, .lineto x0 y0, .stroke]
    | .Rectangle => do
        let angle := s.angle.getD d.angle
        let cos_theta := Real.cos angle
        let sin_theta := Real.sin angle
        let x0 ← s.x[0]?
        let w ← s.width
        let y0 ← s.y[0]?
        let h ← s.height
        let cx := x0 + w / 2
        let cy := y0 + h / 2
        let translate_x := cx - cos_theta * cx + sin_theta * cy
        let translate_y := cy - sin_theta * cx - cos_theta * cy
        some [.RG rgb.1 rgb.2.1 rgb.2.2,
              .cm cos_theta sin_theta (-sin_theta) cos_theta translate_x translate_y,
              .re x0 y0 w h]
    | _ => some [.RG rgb.1 rgb.2.1 rgb.2.2]
  else some []

/-! ### `src/generator.rs` — drawing-operator methods (operator level)

Each `Generator::add_*` shape method only appends formatted operator text
to `self.content_stream`; the functions below return that text as a list of
`Op`, one constructor per operator line, with the `format!` arguments in
source order. -/

/-- `Generator::add_line`: "{w} w\n{j} J\n{x1} {y1} m\n{x2} {y2} l\nS\n". -/
def Generator.add_line_ops (x1 y1 x2 y2 width : Length) (cap_type : CapType) : List Op :=
  [.setWidth width.to_points, .setCap cap_type.to_int,
   .moveto x1.to_points y1.to_points, .lineto x2.to_points y2.to_points, .stroke]

/-- `Generator::add_circle`: delegates to `add_line` with both endpoints at
the center, width `radius * 2.0` and `CapType::Round`. -/
def Generator.add_circle_ops (cx cy radius : Length) : List Op :=
  Generator.add_line_ops cx cy cx cy (radius.mul 2) CapType.Round

/-- `Generator::add_rectangle`: the rotation transform about the rectangle
center followed by one filled-rectangle operator,
"{cos} {sin} {-sin} {cos} {tx} {ty} cm\n{x} {y} {w} {h} re f\n". -/
noncomputable def Generator.add_rectangle_ops (x y width height : Length) (angle : Angle) : List Op :=
  let cos_theta := Real.cos angle.to_radians
  let sin_theta := Real.sin angle.to_radians
  let cx := x.to_points + width.to_points / 2
  let cy := y.to_points + height.to_points / 2
  let translate_x := cx - cos_theta * cx + sin_theta * cy
  let translate_y := cy - sin_theta * cx - cos_theta * cy
  [.cm cos_theta sin_theta (-sin_theta) cos_theta translate_x translate_y,
   .re x.to_points y.to_points width.to_points height.to_points]

/-- `Generator::add_polygon`: empty input returns early appending nothing;
otherwise a moveto for the first vertex, a lineto for each later vertex,
then "h f\n". -/
def Generator.add_polygon_ops : List (Length × Length) → List Op
  | [] => []
  | (x, y) :: rest =>
      .moveto x.to_points y.to_points ::
        (rest.map fun p => Op.lineto p.1.to_points p.2.to_points) ++ [Op.closeFill]

/-! ### `src/generator.rs` — document object assembler (byte level)

The `Generator` struct (`file_path` is dropped: writing the file is outside
the byte-level contract).  Page sizes reach `add_page_with_size` as the
`format!`-rendered point values of width and height; those numeric texts
are opaque `Bytes` parameters here, as is the operator text a shape method
appends to `content_stream`. -/

structure Generator where
  pdf : Bytes
  pdf_pre : Bytes
  offsets : List Nat
  pre_offset : Nat
  content_stream : Bytes
  pages : List Nat

/-- `N_OBJ_RESERVED`: the first two objects are reserved for Catalog/Pages. -/
def N_OBJ_RESERVED : Nat := 2

/-- `Generator::new` (offsets start as `vec![0; N_OBJ_RESERVED]`). -/
def Generator.new : Generator :=
  { pdf := []
    pdf_pre := []
    offsets := [0, 0]
    pre_offset := 0
    content_stream := []
    pages := [] }

/-- The "{n} 0 obj" text opening an object declaration. -/
def obj_head (n : Nat) : Bytes := str (Nat.repr n) ++ str " 0 obj"

/-- The full "{n} 0 obj\n{content}\nendobj\n" framing used by both
`add_object` and `add_pre_object`. -/
def obj_framing (n : Nat) (content : Bytes) : Bytes :=
  str (Nat.repr n) ++ str " 0 obj\n" ++ content ++ str "\nendobj\n"

/-- `Generator::add_object`: records the current main-buffer offset, then
appends the object framed with the next sequential number
(`self.offsets.len()` after the push). -/
def Generator.add_object (g : Generator) (content : Bytes) : Generator :=
  { g with
    offsets := g.offsets ++ [g.pdf.length]
    pdf := g.pdf ++ obj_framing (g.offsets.length + 1) content }

/-- `Generator::add_pre_object`: writes object `n_obj + 1` into the
pre-page buffer, records its offset in slot `n_obj`, and remembers the
resulting pre-buffer length as `pre_offset`. -/
def Generator.add_pre_object (g : Generator) (content : Bytes) (n_obj : Nat) : Generator :=
  { g with
    offsets := g.offsets.set n_obj g.pdf_pre.length
    pdf_pre := g.pdf_pre ++ obj_framing (n_obj + 1) content
    pre_offset := (g.pdf_pre ++ obj_framing (n_obj + 1) content).length }

/-- The "<< /Length {n} >>\nstream\n{s}\nendstream" content-stream object
body built by `Generator::add_content`. -/
def stream_content (s : Bytes) : Bytes :=
  str "<< /Length " ++ str (Nat.repr s.length) ++ str " >>\nstream\n" ++ s ++ str "\nendstream"

/-- `Generator::add_content`: flushes the accumulated content stream as an
object and clears the accumulator. -/
def Generator.add_content (g : Generator) : Generator :=
  { g.add_object (stream_content g.content_stream) with content_stream := [] }

/-- The page object body
"<< /Type /Page /Parent 2 0 R /MediaBox [0 0 {w} {h}] /Contents {c} 0 R >>"
(`w`, `h` are the formatted point values). -/
def page_content (wpts hpts : Bytes) (contents : Nat) : Bytes :=
  str "<< /Type /Page /Parent 2 0 R /MediaBox [0 0 " ++ wpts ++ str " " ++ hpts ++
    str "] /Contents " ++ str (Nat.repr contents) ++ str " 0 R >>"

/-- `Generator::add_page_with_size` (also reached by `add_page_a4` and
`add_page_letter`, which pass fixed sizes): if a previous page exists,
flush its content stream first; register the upcoming page object number;
declare the page object referencing the next object number as its
`/Contents`. -/
def Generator.add_page_with_size (g : Generator) (wpts hpts : Bytes) : Generator :=
  let g := if 0 < g.pages.length then g.add_content else g
  let g := { g with pages := g.pages ++ [g.offsets.length + 1] }
  g.add_object (page_content wpts hpts (g.offsets.length + 2))

/-- The common action of the shape methods (`add_rectangle`, `add_circle`,
`add_line`, `add_polygon`): each only runs `self.content_stream.push_str`
with its formatted operator text, never touching buffers or offsets. -/
def Generator.push_content_ops (g : Generator) (ops : Bytes) : Generator :=
  { g with content_stream := g.content_stream ++ ops }

/-- The Catalog object body. -/
def catalog_content : Bytes := str "<< /Type /Catalog /Pages 2 0 R >>"

/-- Rust `str::trim` as used on the Kids list (only ASCII spaces occur
there, so only spaces are trimmed). -/
def trim_spaces (s : Bytes) : Bytes :=
  ((s.dropWhile (· = ' ')).reverse.dropWhile (· = ' ')).reverse

/-- The "{p} 0 R " fragments of the `/Kids` array, concatenated in page
declaration order and trimmed. -/
def pages_kids (pages : List Nat) : Bytes :=
  trim_spaces ((pages.map fun p => str (Nat.repr p) ++ str " 0 R ").flatten)

/-- The Pages object body
"<< /Type /Pages /Kids [{kids}] /Count {n} >>". -/
def pages_obj_content (pages : List Nat) : Bytes :=
  str "<< /Type /Pages /Kids [" ++ pages_kids pages ++ str "] /Count " ++
    str (Nat.repr pages.length) ++ str " >>"

/-- `Generator::initialize_pdf`: flush the remaining content, write the
header line into the pre-page buffer, then the deferred Catalog and Pages
objects into their reserved slots. -/
def Generator.initialize_pdf (g : Generator) : Generator :=
  let g := g.add_content
  let g := { g with pdf_pre := g.pdf_pre ++ str "%PDF-1.5\n" }
  let g := g.add_pre_object catalog_content 0
  g.add_pre_object (pages_obj_content g.pages) 1

/-- The `{:010}` zero-padded decimal of an offset. -/
def pad10 (n : Nat) : Bytes :=
  List.replicate (10 - (Nat.repr n).data.length) '0' ++ str (Nat.repr n)

/-- The offset printed on xref line `i` (0-based index into `offsets`):
main-buffer objects are shifted by `pre_offset`, per the condition of
`finalize_pdf`. -/
def xref_adjusted (pre_offset i offset : Nat) : Nat :=
  offset + if N_OBJ_RESERVED ≤ i ∧ (0 < offset ∨ i = N_OBJ_RESERVED) then pre_offset else 0

/-- The in-use flag printed on xref line `i`. -/
def xref_flag (i offset : Nat) : Char :=
  if offset = 0 ∧ N_OBJ_RESERVED < i then 'f' else 'n'

/-- One 20-byte xref line, "{:010} 00000 {flag} \n". -/
def xref_line (pre_offset i offset : Nat) : Bytes :=
  pad10 (xref_adjusted pre_offset i offset) ++ str " 00000 " ++
    [xref_flag i offset] ++ str " \n"

/-- `Generator::finalize_pdf`: append the xref table (free-list head line,
then one line per tracked offset) and the trailer to the main buffer. -/
def Generator.finalize_pdf (g : Generator) : Generator :=
  { g with
    pdf := g.pdf
      ++ str "xref\n"
      ++ str "0 " ++ str (Nat.repr (g.offsets.length + 1)) ++ str "\n0000000000 65535 f \n"
      ++ (g.offsets.enum.map fun p => xref_line g.pre_offset p.1 p.2).flatten
      ++ str "trailer\n"
      ++ str "<< /Root 1 0 R /Size " ++ str (Nat.repr (g.offsets.length + 1))
      ++ str " >>\nstartxref\n" ++ str (Nat.repr (g.pdf_pre.length + g.pdf.length))
      ++ str "\n%%EOF\n" }

/-- The byte sequence `write_pdf` puts in the file: the pre-page buffer
followed by the main buffer. -/
def Generator.output_bytes (g : Generator) : Bytes := g.pdf_pre ++ g.pdf

/-- `Generator::write_pdf` up to the file-system boundary: initialize,
finalize, and return the concatenated buffers. -/
def Generator.write_pdf (g : Generator) : Bytes :=
  (g.initialize_pdf.finalize_pdf).output_bytes

/-! ### Build traces

A document is built by a sequence of page additions and shape emissions;
`Cmd.page` carries the formatted point sizes, `Cmd.shape` the operator
text a shape method pushes (every shape method only appends to
`content_stream`). -/

inductive Cmd where
  | page (wpts hpts : Bytes)
  | shape (ops : Bytes)

/-- Run one building command against the generator. -/
def Cmd.step (g : Generator) : Cmd → Generator
  | .page wpts hpts => g.add_page_with_size wpts hpts
  | .shape ops => g.push_content_ops ops

/-- The generator state after building a command sequence from scratch. -/
def run (cmds : List Cmd) : Generator := cmds.foldl Cmd.step Generator.new

/-- The generator state after building, initializing and finalizing. -/
def finalized (cmds : List Cmd) : Generator :=
  ((run cmds).initialize_pdf).finalize_pdf

/-- The number of page additions in a command sequence. -/
def numPages (cmds : List Cmd) : Nat :=
  cmds.countP fun c => match c with | .page _ _ => true | .shape _ => false

/-! ### Instruction executor (spec-modelled)

The script front-end and executor live in `script.rs`, which is not among
the provided sources (only its exports appear in `lib.rs`). -/

/-- Modelled from the spec: the page-size argument of a page directive,
`page <default|a4|letter|<width> <height>>`; a lexically valid but unknown
keyword survives parsing and is rejected at execution time. -/
inductive PageSize where
  | defaultSize
  | a4
  | letter
  | custom (width height : Length)
  | unknownKeyword (kw : String)

/-- Modelled from the spec: a default-style directive's payload. -/
inductive DefaultUpdate where
  | width (w : Length)
  | cap (c : CapType)
  | color (c : Color)

/-- Modelled from the spec: the parsed instruction variants
`AddPage`, `DrawShape`, `SetDefault` (the source file `script.rs` with the
concrete `Instruction` type is not under `src/`). -/
inductive Instruction where
  | addPage (size : PageSize)
  | drawShape (sh : Shape)
  | setDefault (u : DefaultUpdate)

/-- Modelled from the spec: execution failures — unknown page-size keyword,
shape directive with no open page, or a failing shape rendering. -/
inductive ExecutionError where
  | unknownPageSize (kw : String)
  | noOpenPage
  | drawFailure

/-- Modelled from the spec: the executor state — how many pages have been
opened, the current default-style state, and the accumulated operator
text. -/
structure ExecState where
  openPages : ℕ
  defaults : StyleDefaults
  ops : List Op

/-- Modelled from the spec: a default-style directive mutates the
persistent default state through the corresponding `set_default_*`. -/
noncomputable def apply_default (d : StyleDefaults) : DefaultUpdate → StyleDefaults
  | .width w => Shape.set_default_width d w
  | .cap c => Shape.set_default_cap_type d c
  | .color c => Shape.set_default_color d c

/-- Modelled from the spec: executing one instruction.  A page directive
with an unknown keyword fails; a shape directive with no open page fails
with `noOpenPage` (there is no open content stream to draw into);
otherwise the shape is drawn against the current defaults. -/
noncomputable def exec_step (st : ExecState) : Instruction → Except ExecutionError ExecState
  | .addPage ps =>
      match ps with
      | .unknownKeyword kw => .error (.unknownPageSize kw)
      | _ => .ok { st with openPages := st.openPages + 1 }
  | .drawShape sh =>
      if st.openPages = 0 then .error .noOpenPage
      else
        match Shape.draw { sh with content_stream := true } st.defaults with
        | some ops => .ok { st with ops := st.ops ++ ops }
        | none => .error .drawFailure
  | .setDefault u => .ok { st with defaults := apply_default st.defaults u }

/-- Modelled from the spec: walking the instruction sequence in order,
halting at the first failure, starting from the fixed baseline defaults. -/
noncomputable def execute_instructions (instrs : List Instruction) :
    Except ExecutionError ExecState :=
  instrs.foldlM exec_step { openPages := 0, defaults := initial_defaults, ops := [] }

/-! ### Claim C5: rectangle rotation -/

/-- C5.  The text `Generator::add_rectangle` emits is exactly one
transform operator with matrix `[cosθ, sinθ, −sinθ, cosθ, tx, ty]`, where
`tx = cx − cosθ·cx + sinθ·cy`, `ty = cy − sinθ·cx − cosθ·cy` and
`(cx, cy) = (x + w/2, y + h/2)` is the rectangle center in points,
followed by a single filled-rectangle operator with the unrotated origin,
width and height. -/
theorem rectangle_rotation_matrix (x y width height : Length) (angle : Angle) :
    Generator.add_rectangle_ops x y width height angle =
      [Op.cm (Real.cos angle.to_radians) (Real.sin angle.to_radians)
         (-Real.sin angle.to_radians) (Real.cos angle.to_radians)
         ((x.to_points + width.to_points / 2)
           - Real.cos angle.to_radians * (x.to_points + width.to_points / 2)
           + Real.sin angle.to_radians * (y.to_points + height.to_points / 2))
         ((y.to_points + height.to_points / 2)
           - Real.sin angle.to_radians * (x.to_points + width.to_points / 2)
           - Real.cos angle.to_radians * (y.to_points + height.to_points / 2)),
       Op.re x.to_points y.to_points width.to_points height.to_points] := rfl

/-! ### Claim C6: circle approximation -/

/-- C6.  `Generator::add_circle` emits exactly a zero-length line at the
center in points with stroke width `2 × radius` and the rounded cap
(code 1), and no other geometry operators. -/
theorem circle_as_zero_length_line (cx cy radius : Length) :
    Generator.add_circle_ops cx cy radius =
      [Op.setWidth (2 * radius.to_points), Op.setCap 1,
       Op.moveto cx.to_points cy.to_points, Op.lineto cx.to_points cy.to_points,
       Op.stroke] := by
  cases radius <;>
    simp [Generator.add_circle_ops, Generator.add_line_ops, Length.mul, Length.to_points,
      CapType.to_int] <;>
    ring

/-! ### Claim C7: polygon emission -/

/-- C7.  `Generator::add_polygon` emits a moveto for the first vertex, a
lineto for each later vertex in order, then a single close-path-and-fill
operator; the empty vertex list emits nothing (and, being a total
function, cannot fail). -/
theorem polygon_ops_shape :
    Generator.add_polygon_ops [] = [] ∧
    ∀ (x y : Length) (rest : List (Length × Length)),
      Generator.add_polygon_ops ((x, y) :: rest) =
        Op.moveto x.to_points y.to_points ::
          ((rest.map fun p => Op.lineto p.1.to_points p.2.to_points) ++ [Op.closeFill]) :=
  ⟨rfl, fun _ _ _ => rfl⟩

/-! ### Claim C4: render independence -/

/-- A line shape that leaves every style field unset, so that `draw`
resolves them from the process-wide default-style state. -/
def line_defaulted : Shape :=
  { enum_type := .Line
    content_stream := true
    x := [0, 1]
    y := [0, 1]
    width := none
    height := none
    radius := none
    angle := none
    cap_type := none
    color := none }

/-- C4 counterexample.  The default-style state is process-wide and
mutable (`static Lazy<Mutex<..>>` cells written by `set_default_*`), and
`Shape::draw` reads it: the same shape drawn under the initial defaults
and after a `set_default_width(Pt(2.))` yields different operator text, so
output is not independent of default-style mutations performed between
invocations. -/
theorem draw_depends_on_default_state :
    Shape.draw line_defaulted initial_defaults ≠
      Shape.draw line_defaulted (Shape.set_default_width initial_defaults (Length.Pt 2)) := by
  norm_num [Shape.draw, line_defaulted, initial_defaults, Shape.set_default_width,
    Length.to_points, black_rgb]

/-- C4 amended.  Each render invocation does construct its own `Generator`,
but the default-style state is shared and mutable; byte-for-byte identical
output across invocations is guaranteed only when the shape fixes every
style field itself (then `draw` never consults the shared defaults). -/
theorem draw_ignores_defaults_when_styled (s : Shape) (d d' : StyleDefaults)
    (hc : s.color.isSome) (hw : s.width.isSome) (hcap : s.cap_type.isSome)
    (ha : s.angle.isSome) :
    Shape.draw s d = Shape.draw s d' := by
  obtain ⟨c, hc⟩ := Option.isSome_iff_exists.mp hc
  obtain ⟨w, hw⟩ := Option.isSome_iff_exists.mp hw
  obtain ⟨cap, hcap⟩ := Option.isSome_iff_exists.mp hcap
  obtain ⟨a, ha⟩ := Option.isSome_iff_exists.mp ha
  cases hcs : s.content_stream
  · simp [Shape.draw, hcs]
  · cases he : s.enum_type <;> simp [Shape.draw, hcs, he, hc, hw, hcap, ha]

/-- C4 witness: a fully styled line renders identically under two
different default-style states. -/
theorem draw_ignores_defaults_when_styled_witness :
    Shape.draw
        { enum_type := .Line, content_stream := true, x := [0, 1], y := [0, 1],
          width := some 3, height := none, radius := none, angle := some 0,
          cap_type := some .Round, color := some (1, 0, 0) }
        initial_defaults =
      Shape.draw
        { enum_type := .Line, content_stream := true, x := [0, 1], y := [0, 1],
          width := some 3, height := none, radius := none, angle := some 0,
          cap_type := some .Round, color := some (1, 0, 0) }
        (Shape.set_default_width initial_defaults (Length.Pt 2)) :=
  draw_ignores_defaults_when_styled _ _ _ rfl rfl rfl rfl

/-! ### Claims C9 and C10: `Shape::draw` panic conditions and the
polygon gap -/

/-- The coordinate arity `Shape::draw` indexes for each kind:
`x[0], y[0], x[1], y[1]` for a line, `x[0], y[0]` for a circle or a
rectangle, nothing for the rest. -/
def shape_arity_ok (s : Shape) : Prop :=
  match s.enum_type with
  | .Line => 2 ≤ s.x.length ∧ 2 ≤ s.y.length
  | .Circle => 1 ≤ s.x.length ∧ 1 ≤ s.y.length
  | .Rectangle => 1 ≤ s.x.length ∧ 1 ≤ s.y.length
  | _ => True

/-- The kind-specific optional fields C9 requires to be set. -/
def kind_fields_set (s : Shape) : Prop :=
  (s.enum_type = .Circle → s.radius.isSome) ∧
  (s.enum_type = .Rectangle → s.width.isSome ∧ s.height.isSome)

/-- A line shape with empty coordinate vectors: all the kind-specific
optional fields C9 names are (vacuously) set, yet `draw` panics on the
`self.x[0]` index. -/
def line_no_coords : Shape :=
  { enum_type := .Line
    content_stream := true
    x := []
    y := []
    width := none
    height := none
    radius := none
    angle := none
    cap_type := none
    color := none }

/-- C9 counterexample.  A `Shape` with a content stream attached whose
kind-specific optional fields satisfy the claimed precondition can still
panic: a line with empty coordinate vectors dies on the `self.x[0]`
index, so the precondition of C9 does not make `draw` total. -/
theorem draw_panics_beyond_claimed_fields :
    line_no_coords.content_stream = true ∧ kind_fields_set line_no_coords ∧
      Shape.draw line_no_coords initial_defaults = none := by
  refine ⟨rfl, ⟨?_, ?_⟩, rfl⟩ <;> simp [line_no_coords, kind_fields_set]

/-- C9 amended.  With a content stream attached: `draw` panics when the
kind is `Circle` and `radius` is `None`, and when the kind is `Rectangle`
and `width` or `height` is `None`; and it is total once those fields are
set *and* the coordinate vectors hold the arity the kind indexes. -/
theorem draw_panic_conditions_and_totality (s : Shape) (d : StyleDefaults)
    (hcs : s.content_stream = true) :
    ((s.enum_type = .Circle ∧ s.radius = none) → Shape.draw s d = none) ∧
    ((s.enum_type = .Rectangle ∧ (s.width = none ∨ s.height = none)) →
      Shape.draw s d = none) ∧
    (shape_arity_ok s → kind_fields_set s → (Shape.draw s d).isSome = true) := by
  refine ⟨?_, ?_, ?_⟩
  · rintro ⟨ht, hr⟩
    simp [Shape.draw, hcs, ht, hr]
  · rintro ⟨ht, hw | hh⟩
    · cases hx : s.x[0]? <;> simp [Shape.draw, hcs, ht, hw, hx]
    · cases hx : s.x[0]? <;> cases hv : s.width <;> cases hy : s.y[0]? <;>
        simp [Shape.draw, hcs, ht, hh, hx, hv, hy]
  · intro harity hfields
    obtain ⟨hcirc, hrect⟩ := hfields
    cases ht : s.enum_type <;> simp only [shape_arity_ok, ht] at harity
    case Line =>
      obtain ⟨hx, hy⟩ := harity
      obtain ⟨x0, hx0⟩ : ∃ v, s.x[0]? = some v := ⟨_, List.getElem?_eq_getElem (by omega)⟩
      obtain ⟨x1, hx1⟩ : ∃ v, s.x[1]? = some v := ⟨_, List.getElem?_eq_getElem (by omega)⟩
      obtain ⟨y0, hy0⟩ : ∃ v, s.y[0]? = some v := ⟨_, List.getElem?_eq_getElem (by omega)⟩
      obtain ⟨y1, hy1⟩ : ∃ v, s.y[1]? = some v := ⟨_, List.getElem?_eq_getElem (by omega)⟩
      simp [Shape.draw, hcs, ht, hx0, hx1, hy0, hy1]
    case Circle =>
      obtain ⟨hx, hy⟩ := harity
      obtain ⟨r, hr⟩ := Option.isSome_iff_exists.mp (hcirc ht)
      obtain ⟨x0, hx0⟩ : ∃ v, s.x[0]? = some v := ⟨_, List.getElem?_eq_getElem (by omega)⟩
      obtain ⟨y0, hy0⟩ : ∃ v, s.y[0]? = some v := ⟨_, List.getElem?_eq_getElem (by omega)⟩
      simp [Shape.draw, hcs, ht, hr, hx0, hy0]
    case Rectangle =>
      obtain ⟨hx, hy⟩ := harity
      obtain ⟨w, hw⟩ := Option.isSome_iff_exists.mp (hrect ht).1
      obtain ⟨h, hh⟩ := Option.isSome_iff_exists.mp (hrect ht).2
      obtain ⟨x0, hx0⟩ : ∃ v, s.x[0]? = some v := ⟨_, List.getElem?_eq_getElem (by omega)⟩
      obtain ⟨y0, hy0⟩ : ∃ v, s.y[0]? = some v := ⟨_, List.getElem?_eq_getElem (by omega)⟩
      simp [Shape.draw, hcs, ht, hw, hh, hx0, hy0]
    case Polygon => simp [Shape.draw, hcs, ht]
    case Unknown => simp [Shape.draw, hcs, ht]

/-- C9 witness: a circle shape with a content stream attached and no
radius makes `draw` panic, per the first conjunct. -/
theorem draw_panic_conditions_witness :
    Shape.draw
        { enum_type := .Circle, content_stream := true, x := [5], y := [5],
          width := none, height := none, radius := none, angle := none,
          cap_type := none, color := none }
        initial_defaults = none :=
  (draw_panic_conditions_and_totality _ initial_defaults rfl).1 ⟨rfl, rfl⟩

/-- C10.  For a shape with a content stream attached whose kind is
`Polygon` or `Unknown`, `Shape::draw` emits exactly the color-set line
("r g b RG") and no geometry operators: the builder-style drawing path
does not implement polygon geometry. -/
theorem polygon_shape_draw_color_only (s : Shape) (d : StyleDefaults)
    (hcs : s.content_stream = true)
    (h : s.enum_type = .Polygon ∨ s.enum_type = .Unknown) :
    Shape.draw s d =
      some [Op.RG (s.color.getD d.color).1 (s.color.getD d.color).2.1
        (s.color.getD d.color).2.2] := by
  rcases h with h | h <;> simp [Shape.draw, hcs, h]

/-- C10 witness: a concrete polygon shape draws only its color line. -/
theorem polygon_shape_draw_color_only_witness :
    Shape.draw
        { enum_type := .Polygon, content_stream := true, x := [0, 1, 2], y := [0, 1, 2],
          width := none, height := none, radius := none, angle := none,
          cap_type := none, color := some (0.5, 0.5, 0.5) }
        initial_defaults = some [Op.RG 0.5 0.5 0.5] :=
  polygon_shape_draw_color_only _ initial_defaults rfl (Or.inl rfl)

/-! ### Claim C8: drawing with no open page -/

/-- C8.  Executing any instruction sequence in which a shape directive
occurs before any page directive fails with `noOpenPage`: there is no open
content stream to draw into, and execution halts at the first failure. -/
theorem exec_state_no_page : ∀ (pre : List Instruction),
    (∀ ps, Instruction.addPage ps ∉ pre) → ∀ (sh : Shape) (rest : List Instruction)
    (d : StyleDefaults) (ops : List Op),
    List.foldlM exec_step ⟨0, d, ops⟩ (pre ++ .drawShape sh :: rest) =
      .error .noOpenPage := by
  intro pre
  induction pre with
  | nil => intro _ sh rest d ops; rfl
  | cons i pre ih =>
      intro hpre sh rest d ops
      match i with
      | .addPage ps => exact absurd (List.mem_cons_self _ _) (hpre ps)
      | .drawShape sh' => rfl
      | .setDefault u =>
          rw [List.cons_append, List.foldlM_cons]
          exact ih (fun ps hmem => hpre ps (List.mem_cons_of_mem _ hmem)) sh rest _ ops

/-- C8.  Executing any instruction sequence in which a shape directive
occurs before any page directive fails with `noOpenPage`: there is no open
content stream to draw into, and execution halts at the first failure. -/
theorem draw_before_page_fails (pre : List Instruction) (sh : Shape)
    (rest : List Instruction) (hpre : ∀ ps, Instruction.addPage ps ∉ pre) :
    execute_instructions (pre ++ .drawShape sh :: rest) = .error .noOpenPage :=
  exec_state_no_page pre hpre sh rest initial_defaults []

/-- C8 witness: a default-style directive followed by a shape directive
and no page directive fails with `noOpenPage`. -/
theorem draw_before_page_fails_witness :
    execute_instructions
        [Instruction.setDefault (.width (Length.Pt 2)), Instruction.drawShape line_defaulted] =
      Except.error ExecutionError.noOpenPage :=
  draw_before_page_fails [Instruction.setDefault (.width (Length.Pt 2))] line_defaulted []
    (by intro ps hmem; simp [List.mem_singleton] at hmem)

/-! ### List helpers for buffer reasoning -/

theorem pfx_append_right {s t : Bytes} (h : s <+: t) (u : Bytes) : s <+: t ++ u := by
  obtain ⟨r, rfl⟩ := h
  exact ⟨r ++ u, (List.append_assoc _ _ _).symm⟩

theorem sfx_append_left {s t : Bytes} (h : s <:+ t) (u : Bytes) : s <:+ u ++ t := by
  obtain ⟨r, rfl⟩ := h
  exact ⟨u ++ r, List.append_assoc _ _ _⟩

theorem ifx_append_right {m t : Bytes} (h : m <:+: t) (u : Bytes) : m <:+: t ++ u := by
  obtain ⟨a, b, rfl⟩ := h
  exact ⟨a, b ++ u, by simp⟩

theorem ifx_append_left {m t : Bytes} (h : m <:+: t) (u : Bytes) : m <:+: u ++ t := by
  obtain ⟨a, b, rfl⟩ := h
  exact ⟨u ++ a, b, by simp⟩

theorem ifx_self_append (m u : Bytes) : m <:+: m ++ u := ⟨[], u, by simp⟩

theorem drop_lt_of_pfx {s buf : Bytes} {off : Nat} (hs : s ≠ []) (h : s <+: buf.drop off) :
    off < buf.length := by
  by_contra hc
  rw [List.drop_eq_nil_of_le (Nat.le_of_not_lt hc)] at h
  obtain ⟨r, hr⟩ := h
  exact hs (List.append_eq_nil.mp hr).1

theorem pfx_drop_extend {s buf : Bytes} {off : Nat} (hs : s ≠ []) (h : s <+: buf.drop off)
    (ext : Bytes) : s <+: (buf ++ ext).drop off := by
  rw [List.drop_append_of_le_length (Nat.le_of_lt (drop_lt_of_pfx hs h))]
  exact pfx_append_right h ext

theorem obj_head_ne_nil (n : Nat) : obj_head n ≠ [] := by
  intro hc
  exact absurd (List.append_eq_nil.mp hc).2 (by decide)

theorem obj_framing_ne_nil (n : Nat) (c : Bytes) : obj_framing n c ≠ [] := by
  intro hc
  exact absurd (List.append_eq_nil.mp hc).2 (by decide)

theorem obj_head_framing (n : Nat) (c : Bytes) : obj_head n <+: obj_framing n c := by
  refine ⟨str "\n" ++ c ++ str "\nendobj\n", ?_⟩
  have h7 : str " 0 obj" ++ str "\n" = str " 0 obj\n" := by decide
  simp only [obj_head, obj_framing, ← h7, List.append_assoc]

/-! ### Object-placement predicates -/

/-- Offset slot `idx` points at a full object declaration numbered `n`
with body `content`. -/
def framed_at (offsets : List Nat) (pdf : Bytes) (idx n : Nat) (content : Bytes) : Prop :=
  ∃ off, offsets[idx]? = some off ∧ obj_framing n content <+: pdf.drop off

/-- Every non-reserved offset slot points at an object declaration
carrying the slot's 1-based number. -/
def all_objs_framed (offsets : List Nat) (pdf : Bytes) : Prop :=
  ∀ i off, 2 ≤ i → offsets[i]? = some off → ∃ c, obj_framing (i + 1) c <+: pdf.drop off

/-- The non-reserved offsets are strictly increasing in slot order. -/
def offsets_mono (offsets : List Nat) : Prop :=
  ∀ i j oi oj, 2 ≤ i → i < j → offsets[i]? = some oi → offsets[j]? = some oj → oi < oj

theorem off_lt_of_framed {offsets : List Nat} {pdf : Bytes} {i off : Nat}
    (ha : all_objs_framed offsets pdf) (h2 : 2 ≤ i) (hoff : offsets[i]? = some off) :
    off < pdf.length := by
  obtain ⟨c, hc⟩ := ha i off h2 hoff
  exact drop_lt_of_pfx (obj_framing_ne_nil _ _) hc

theorem framed_at_append {offsets : List Nat} {pdf : Bytes} {idx n : Nat} {content : Bytes}
    (h : framed_at offsets pdf idx n content) (ext : Bytes) :
    framed_at offsets (pdf ++ ext) idx n content := by
  obtain ⟨off, hoff, hp⟩ := h
  exact ⟨off, hoff, pfx_drop_extend (obj_framing_ne_nil _ _) hp ext⟩

theorem framed_at_snoc {offsets : List Nat} {pdf : Bytes} {idx n : Nat} {content : Bytes}
    (h : framed_at offsets pdf idx n content) (x : Nat) :
    framed_at (offsets ++ [x]) pdf idx n content := by
  obtain ⟨off, hoff, hp⟩ := h
  exact ⟨off, by rw [List.getElem?_append_left (List.getElem?_eq_some.mp hoff).1]; exact hoff, hp⟩

theorem framed_at_set {offsets : List Nat} {pdf : Bytes} {idx n : Nat} {content : Bytes}
    (h : framed_at offsets pdf idx n content) (i v : Nat) (hne : i ≠ idx) :
    framed_at (offsets.set i v) pdf idx n content := by
  obtain ⟨off, hoff, hp⟩ := h
  exact ⟨off, by rw [List.getElem?_set]; simp [hne]; exact hoff, hp⟩

theorem framed_at_new (offsets : List Nat) (pdf : Bytes) (c : Bytes) :
    framed_at (offsets ++ [pdf.length]) (pdf ++ obj_framing (offsets.length + 1) c)
      offsets.length (offsets.length + 1) c := by
  refine ⟨pdf.length, by simp, ?_⟩
  have hd : (pdf ++ obj_framing (offsets.length + 1) c).drop pdf.length =
      obj_framing (offsets.length + 1) c := by simp
  rw [hd]

theorem all_objs_framed_snoc {offsets : List Nat} {pdf : Bytes}
    (ha : all_objs_framed offsets pdf) (c : Bytes) :
    all_objs_framed (offsets ++ [pdf.length]) (pdf ++ obj_framing (offsets.length + 1) c) := by
  intro i off h2 hoff
  by_cases hi : i < offsets.length
  · rw [List.getElem?_append_left hi] at hoff
    obtain ⟨c', hc'⟩ := ha i off h2 hoff
    exact ⟨c', pfx_drop_extend (obj_framing_ne_nil _ _) hc' _⟩
  · have hieq : i = offsets.length := by
      have hlt := (List.getElem?_eq_some.mp hoff).1
      simp only [List.length_append, List.length_cons, List.length_nil] at hlt
      omega
    subst hieq
    have hoeq : off = pdf.length := by
      simp only [List.getElem?_concat_length, Option.some.injEq] at hoff
      omega
    subst hoeq
    refine ⟨c, ?_⟩
    have hd : (pdf ++ obj_framing (offsets.length + 1) c).drop pdf.length =
        obj_framing (offsets.length + 1) c := by simp
    rw [hd]

theorem offsets_mono_snoc {offsets : List Nat} {pdf : Bytes}
    (hm : offsets_mono offsets) (ha : all_objs_framed offsets pdf) :
    offsets_mono (offsets ++ [pdf.length]) := by
  intro i j oi oj h2 hij hoi hoj
  by_cases hj : j < offsets.length
  · rw [List.getElem?_append_left (by omega)] at hoi
    rw [List.getElem?_append_left hj] at hoj
    exact hm i j oi oj h2 hij hoi hoj
  · have hjeq : j = offsets.length := by
      have hlt := (List.getElem?_eq_some.mp hoj).1
      simp only [List.length_append, List.length_cons, List.length_nil] at hlt
      omega
    subst hjeq
    have hoeq : oj = pdf.length := by
      simp only [List.getElem?_concat_length, Option.some.injEq] at hoj
      omega
    subst hoeq
    rw [List.getElem?_append_left (by omega)] at hoi
    exact off_lt_of_framed ha h2 hoi

theorem all_objs_framed_set01 {offsets : List Nat} {pdf : Bytes}
    (ha : all_objs_framed offsets pdf) (i v : Nat) (hi : i < 2) :
    all_objs_framed (offsets.set i v) pdf := by
  intro j off h2 hoff
  rw [List.getElem?_set] at hoff
  simp only [if_neg (by omega : ¬ i = j)] at hoff
  exact ha j off h2 hoff

theorem offsets_mono_set01 {offsets : List Nat}
    (hm : offsets_mono offsets) (i v : Nat) (hi : i < 2) :
    offsets_mono (offsets.set i v) := by
  intro a b oa ob h2 hab hoa hob
  rw [List.getElem?_set] at hoa hob
  simp only [if_neg (by omega : ¬ i = a), if_neg (by omega : ¬ i = b)] at hoa hob
  exact hm a b oa ob h2 hab hoa hob

/-! ### Projection lemmas for the generator operations -/

@[simp] theorem add_object_offsets (g : Generator) (c : Bytes) :
    (g.add_object c).offsets = g.offsets ++ [g.pdf.length] := rfl

@[simp] theorem add_object_pdf (g : Generator) (c : Bytes) :
    (g.add_object c).pdf = g.pdf ++ obj_framing (g.offsets.length + 1) c := rfl

@[simp] theorem add_object_pdf_pre (g : Generator) (c : Bytes) :
    (g.add_object c).pdf_pre = g.pdf_pre := rfl

@[simp] theorem add_object_pre_offset (g : Generator) (c : Bytes) :
    (g.add_object c).pre_offset = g.pre_offset := rfl

@[simp] theorem add_object_pages (g : Generator) (c : Bytes) :
    (g.add_object c).pages = g.pages := rfl

@[simp] theorem add_content_offsets (g : Generator) :
    g.add_content.offsets = g.offsets ++ [g.pdf.length] := rfl

@[simp] theorem add_content_pdf (g : Generator) :
    g.add_content.pdf = g.pdf ++ obj_framing (g.offsets.length + 1) (stream_content g.content_stream) := rfl

@[simp] theorem add_content_pdf_pre (g : Generator) :
    g.add_content.pdf_pre = g.pdf_pre := rfl

@[simp] theorem add_content_pre_offset (g : Generator) :
    g.add_content.pre_offset = g.pre_offset := rfl

@[simp] theorem add_content_pages (g : Generator) :
    g.add_content.pages = g.pages := rfl

@[simp] theorem add_content_cs (g : Generator) :
    g.add_content.content_stream = [] := rfl

@[simp] theorem finalize_offsets (g : Generator) :
    g.finalize_pdf.offsets = g.offsets := rfl

@[simp] theorem finalize_pdf_pre (g : Generator) :
    g.finalize_pdf.pdf_pre = g.pdf_pre := rfl

@[simp] theorem finalize_pre_offset (g : Generator) :
    g.finalize_pdf.pre_offset = g.pre_offset := rfl

@[simp] theorem finalize_pages (g : Generator) :
    g.finalize_pdf.pages = g.pages := rfl

theorem finalize_pdf_ext (g : Generator) : ∃ t, g.finalize_pdf.pdf = g.pdf ++ t := by
  refine ⟨str "xref\n" ++ (str "0 " ++ (str (Nat.repr (g.offsets.length + 1)) ++
    (str "\n0000000000 65535 f \n" ++
      ((g.offsets.enum.map fun p => xref_line g.pre_offset p.1 p.2).flatten ++
        (str "trailer\n" ++ (str "<< /Root 1 0 R /Size " ++
          (str (Nat.repr (g.offsets.length + 1)) ++ (str " >>\nstartxref\n" ++
            (str (Nat.repr (g.pdf_pre.length + g.pdf.length)) ++ str "\n%%EOF\n"))))))))), ?_⟩
  simp only [Generator.finalize_pdf, List.append_assoc]

/-! ### The build-phase invariant -/

/-- Invariant of a generator state reachable by page additions and shape
emissions from `Generator.new` (the state the spec calls "during
execution": nothing written to the pre-page buffer yet, every appended
object well-framed in the main buffer, page and content-stream objects
laid out alternately). -/
structure CoreInv (g : Generator) : Prop where
  pre_nil : g.pdf_pre = []
  preoff : g.pre_offset = 0
  two_le : 2 ≤ g.offsets.length
  o0 : g.offsets[0]? = some 0
  o1 : g.offsets[1]? = some 0
  objs : all_objs_framed g.offsets g.pdf
  mono : offsets_mono g.offsets
  pval : ∀ (k pk : Nat), g.pages[k]? = some pk → pk = 2 * k + 3
  pobj : ∀ (k pk : Nat), g.pages[k]? = some pk → ∃ wpts hpts,
    framed_at g.offsets g.pdf (pk - 1) pk (page_content wpts hpts (pk + 1))
  cobj : ∀ (k : Nat), k + 1 < g.pages.length → ∃ s,
    framed_at g.offsets g.pdf (2 * k + 3) (2 * k + 4) (stream_content s)

/-- The build-phase invariant: the core layout facts plus the counting
relation between registered pages and offset slots. -/
structure BuildInv (g : Generator) : Prop where
  core : CoreInv g
  plen0 : g.pages = [] → g.offsets.length = 2
  plen1 : g.pages ≠ [] → g.offsets.length = 2 * g.pages.length + 1

theorem buildInv_new : BuildInv Generator.new := by
  refine ⟨⟨rfl, rfl, by decide, by decide, by decide, ?_, ?_, ?_, ?_, ?_⟩, fun _ => rfl, ?_⟩
  · intro i off h2 hoff
    have := (List.getElem?_eq_some.mp hoff).1
    simp [Generator.new] at this
    omega
  · intro i j oi oj h2 hij hoi hoj
    have := (List.getElem?_eq_some.mp hoj).1
    simp [Generator.new] at this
    omega
  · intro k pk hk
    have := (List.getElem?_eq_some.mp hk).1
    simp [Generator.new] at this
  · intro k pk hk
    have := (List.getElem?_eq_some.mp hk).1
    simp [Generator.new] at this
  · intro k hk
    simp [Generator.new] at hk
  · intro hne
    exact absurd rfl hne

/-- `add_object` (and therefore `add_content`) preserves the core layout
facts, whatever body is appended. -/
theorem CoreInv.add_object {g : Generator} (h : CoreInv g) (c : Bytes) :
    CoreInv (g.add_object c) := by
  obtain ⟨hpre, hpo, h2, ho0, ho1, hobjs, hmono, hpval, hpobj, hcobj⟩ := h
  refine ⟨hpre, hpo, ?_, ?_, ?_, ?_, ?_, ?_, ?_, ?_⟩
  · simp; omega
  · rw [add_object_offsets, List.getElem?_append_left (by omega)]; exact ho0
  · rw [add_object_offsets, List.getElem?_append_left (by omega)]; exact ho1
  · rw [add_object_offsets, add_object_pdf]
    exact all_objs_framed_snoc hobjs c
  · rw [add_object_offsets]
    exact offsets_mono_snoc hmono hobjs
  · intro k pk hk
    rw [add_object_pages] at hk
    exact hpval k pk hk
  · intro k pk hk
    rw [add_object_pages] at hk
    obtain ⟨w, hh, hf⟩ := hpobj k pk hk
    exact ⟨w, hh, framed_at_append (framed_at_snoc hf _) _⟩
  · intro k hk
    rw [add_object_pages] at hk
    obtain ⟨s, hf⟩ := hcobj k hk
    exact ⟨s, framed_at_append (framed_at_snoc hf _) _⟩

/-- Shape emission (pushing operator text onto the content stream)
preserves the build invariant untouched. -/
theorem BuildInv.push_ops {g : Generator} (h : BuildInv g) (ops : Bytes) :
    BuildInv (g.push_content_ops ops) := by
  obtain ⟨⟨hpre, hpo, h2, ho0, ho1, hobjs, hmono, hpval, hpobj, hcobj⟩, hl0, hl1⟩ := h
  exact ⟨⟨hpre, hpo, h2, ho0, ho1, hobjs, hmono, hpval, hpobj, hcobj⟩, hl0, hl1⟩

theorem CoreInv.add_content {g : Generator} (h : CoreInv g) : CoreInv g.add_content := by
  obtain ⟨a, b, c, d, e, f, m, p, q, r⟩ := h.add_object (stream_content g.content_stream)
  exact ⟨a, b, c, d, e, f, m, p, q, r⟩

/-- Registering a page and declaring its page object preserves the build
invariant, provided the incoming state (after any flush) has the full
`2·pages + 2` offset slots and a content-stream object for every
registered page. -/
theorem page_step_inv {g1 : Generator} (hc : CoreInv g1)
    (hlen : g1.offsets.length = 2 * g1.pages.length + 2)
    (hcb : ∀ (k : Nat), k < g1.pages.length → ∃ s,
      framed_at g1.offsets g1.pdf (2 * k + 3) (2 * k + 4) (stream_content s))
    (wpts hpts : Bytes) :
    BuildInv (({ g1 with pages := g1.pages ++ [g1.offsets.length + 1] }).add_object
      (page_content wpts hpts (g1.offsets.length + 2))) := by
  obtain ⟨hpre, hpo, h2, ho0, ho1, hobjs, hmono, hpval, hpobj, hcobj⟩ := hc
  refine ⟨⟨hpre, hpo, ?_, ?_, ?_, ?_, ?_, ?_, ?_, ?_⟩, ?_, ?_⟩
  · show 2 ≤ (g1.offsets ++ [g1.pdf.length]).length
    simp only [List.length_append, List.length_cons, List.length_nil]
    omega
  · show (g1.offsets ++ [g1.pdf.length])[0]? = some 0
    rw [List.getElem?_append_left (by omega)]
    exact ho0
  · show (g1.offsets ++ [g1.pdf.length])[1]? = some 0
    rw [List.getElem?_append_left (by omega)]
    exact ho1
  · exact all_objs_framed_snoc hobjs _
  · exact offsets_mono_snoc hmono hobjs
  · intro k pk hk
    have hk2 : (g1.pages ++ [g1.offsets.length + 1])[k]? = some pk := hk
    by_cases hklt : k < g1.pages.length
    · rw [List.getElem?_append_left hklt] at hk2
      exact hpval k pk hk2
    · have hkeq : k = g1.pages.length := by
        have := (List.getElem?_eq_some.mp hk2).1
        simp only [List.length_append, List.length_cons, List.length_nil] at this
        omega
      subst hkeq
      have hpk : pk = g1.offsets.length + 1 := by
        simp only [List.getElem?_concat_length, Option.some.injEq] at hk2
        omega
      omega
  · intro k pk hk
    have hk2 : (g1.pages ++ [g1.offsets.length + 1])[k]? = some pk := hk
    by_cases hklt : k < g1.pages.length
    · rw [List.getElem?_append_left hklt] at hk2
      obtain ⟨w, hh, hf⟩ := hpobj k pk hk2
      exact ⟨w, hh, framed_at_append (framed_at_snoc hf _) _⟩
    · have hkeq : k = g1.pages.length := by
        have := (List.getElem?_eq_some.mp hk2).1
        simp only [List.length_append, List.length_cons, List.length_nil] at this
        omega
      subst hkeq
      have hpk : pk = g1.offsets.length + 1 := by
        simp only [List.getElem?_concat_length, Option.some.injEq] at hk2
        omega
      subst hpk
      exact ⟨wpts, hpts, framed_at_new _ _ _⟩
  · intro k hk
    have hk2 : k + 1 < g1.pages.length + 1 := by
      simpa using hk
    obtain ⟨s, hf⟩ := hcb k (by omega)
    exact ⟨s, framed_at_append (framed_at_snoc hf _) _⟩
  · intro hcnil
    have hc2 : g1.pages ++ [g1.offsets.length + 1] = [] := hcnil
    simp at hc2
  · intro _
    show (g1.offsets ++ [g1.pdf.length]).length =
      2 * (g1.pages ++ [g1.offsets.length + 1]).length + 1
    simp only [List.length_append, List.length_cons, List.length_nil]
    omega

/-- Adding a page preserves the build invariant. -/
theorem BuildInv.page {g : Generator} (h : BuildInv g) (wpts hpts : Bytes) :
    BuildInv (g.add_page_with_size wpts hpts) := by
  by_cases hpg : 0 < g.pages.length
  · have hne : g.pages ≠ [] := by
      intro hc
      rw [hc] at hpg
      simp at hpg
    have hlen1 := h.plen1 hne
    have hcore2 : CoreInv g.add_content := h.core.add_content
    have hlen2 : g.add_content.offsets.length = 2 * g.add_content.pages.length + 2 := by
      show (g.offsets ++ [g.pdf.length]).length = 2 * g.pages.length + 2
      simp only [List.length_append, List.length_cons, List.length_nil]
      omega
    have hcb2 : ∀ (k : Nat), k < g.add_content.pages.length → ∃ s,
        framed_at g.add_content.offsets g.add_content.pdf (2 * k + 3) (2 * k + 4)
          (stream_content s) := by
      intro k hk
      rw [add_content_pages] at hk
      by_cases hk2 : k + 1 < g.pages.length
      · obtain ⟨s, hf⟩ := h.core.cobj k hk2
        exact ⟨s, framed_at_append (framed_at_snoc hf _) _⟩
      · have hkeq : 2 * k + 3 = g.offsets.length := by omega
        have hkeq4 : 2 * k + 4 = g.offsets.length + 1 := by omega
        refine ⟨g.content_stream, ?_⟩
        rw [add_content_offsets, add_content_pdf, hkeq, hkeq4]
        exact framed_at_new _ _ _
    have hrw : g.add_page_with_size wpts hpts =
        ({ g.add_content with
            pages := g.add_content.pages ++ [g.add_content.offsets.length + 1] }).add_object
          (page_content wpts hpts (g.add_content.offsets.length + 2)) := by
      simp only [Generator.add_page_with_size, if_pos hpg]
    rw [hrw]
    exact page_step_inv hcore2 hlen2 hcb2 wpts hpts
  · have hnil : g.pages = [] := List.length_eq_zero.mp (by omega)
    have hlen : g.offsets.length = 2 * g.pages.length + 2 := by
      rw [h.plen0 hnil, hnil]
      decide
    have hcb : ∀ (k : Nat), k < g.pages.length → ∃ s,
        framed_at g.offsets g.pdf (2 * k + 3) (2 * k + 4) (stream_content s) := by
      intro k hk
      rw [hnil] at hk
      simp at hk
    have hrw : g.add_page_with_size wpts hpts =
        ({ g with pages := g.pages ++ [g.offsets.length + 1] }).add_object
          (page_content wpts hpts (g.offsets.length + 2)) := by
      simp only [Generator.add_page_with_size, if_neg hpg]
    rw [hrw]
    exact page_step_inv h.core hlen hcb wpts hpts

/-- Every state reachable by building commands satisfies the invariant. -/
theorem buildInv_run (cmds : List Cmd) : BuildInv (run cmds) := by
  have main : ∀ (l : List Cmd) (g : Generator), BuildInv g → BuildInv (l.foldl Cmd.step g) := by
    intro l
    induction l with
    | nil => exact fun g h => h
    | cons c l ih =>
        intro g h
        refine ih _ ?_
        cases c with
        | page wpts hpts => exact h.page wpts hpts
        | shape ops => exact h.push_ops ops
  exact main cmds Generator.new buildInv_new

/-- Invariant of a finalize-ready generator: header written, both reserved
objects resolved in the pre-page buffer, `pre_offset` equal to the
pre-page buffer length, every main-buffer object well-framed, and a page
plus content-stream object for every registered page. -/
structure PostInv (g : Generator) : Prop where
  hdr : ∃ t, g.pdf_pre = str "%PDF-1.5\n" ++ t
  preoff : g.pre_offset = g.pdf_pre.length
  o0 : ∃ off, g.offsets[0]? = some off ∧ off < g.pdf_pre.length ∧
    obj_head 1 <+: g.pdf_pre.drop off
  o1 : ∃ off, g.offsets[1]? = some off ∧
    obj_framing 2 (pages_obj_content g.pages) <+: g.pdf_pre.drop off
  objs : all_objs_framed g.offsets g.pdf
  mono : offsets_mono g.offsets
  two_le : 2 ≤ g.offsets.length
  olen0 : g.pages = [] → g.offsets.length = 3
  olen1 : g.pages ≠ [] → g.offsets.length = 2 * g.pages.length + 2
  pval : ∀ (k pk : Nat), g.pages[k]? = some pk → pk = 2 * k + 3
  pobj : ∀ (k pk : Nat), g.pages[k]? = some pk → ∃ wpts hpts,
    framed_at g.offsets g.pdf (pk - 1) pk (page_content wpts hpts (pk + 1))
  cobj : ∀ (k : Nat), k < g.pages.length → ∃ s,
    framed_at g.offsets g.pdf (2 * k + 3) (2 * k + 4) (stream_content s)

theorem initialize_inv {g : Generator} (h : BuildInv g) : PostInv g.initialize_pdf := by
  obtain ⟨⟨hpre, hpo, h2, ho0, ho1, hobjs, hmono, hpval, hpobj, hcobj⟩, hl0, hl1⟩ := h
  have hg1objs := all_objs_framed_snoc hobjs (stream_content g.content_stream)
  have hg1mono := offsets_mono_snoc hmono hobjs
  refine ⟨?_, rfl, ?_, ?_, ?_, ?_, ?_, ?_, ?_, ?_, ?_, ?_⟩
  · refine ⟨obj_framing 1 catalog_content ++ obj_framing 2 (pages_obj_content g.pages), ?_⟩
    show ((g.pdf_pre ++ str "%PDF-1.5\n") ++ obj_framing 1 catalog_content) ++
        obj_framing 2 (pages_obj_content g.pages) =
      str "%PDF-1.5\n" ++
        (obj_framing 1 catalog_content ++ obj_framing 2 (pages_obj_content g.pages))
    rw [hpre]
    simp [List.append_assoc]
  · refine ⟨(g.pdf_pre ++ str "%PDF-1.5\n").length, ?_, ?_, ?_⟩
    · show (((g.offsets ++ [g.pdf.length]).set 0 (g.pdf_pre ++ str "%PDF-1.5\n").length).set 1
          ((g.pdf_pre ++ str "%PDF-1.5\n") ++ obj_framing 1 catalog_content).length)[0]? =
        some (g.pdf_pre ++ str "%PDF-1.5\n").length
      rw [List.getElem?_set_ne (by omega), List.getElem?_set_eq_of_lt _ (by simp only [List.length_set, List.length_append, List.length_cons, List.length_nil]; omega)]
    · show (g.pdf_pre ++ str "%PDF-1.5\n").length <
        ((((g.pdf_pre ++ str "%PDF-1.5\n") ++ obj_framing 1 catalog_content) ++
          obj_framing 2 (pages_obj_content g.pages))).length
      have hpos := List.length_pos.mpr (obj_framing_ne_nil 1 catalog_content)
      simp only [List.length_append]
      omega
    · show obj_head 1 <+:
        ((((g.pdf_pre ++ str "%PDF-1.5\n") ++ obj_framing 1 catalog_content) ++
          obj_framing 2 (pages_obj_content g.pages)).drop
            (g.pdf_pre ++ str "%PDF-1.5\n").length)
      have hd : (((g.pdf_pre ++ str "%PDF-1.5\n") ++ obj_framing 1 catalog_content) ++
          obj_framing 2 (pages_obj_content g.pages)).drop
            (g.pdf_pre ++ str "%PDF-1.5\n").length =
          obj_framing 1 catalog_content ++ obj_framing 2 (pages_obj_content g.pages) := by
        rw [List.append_assoc]
        simp
      rw [hd]
      exact pfx_append_right (obj_head_framing 1 catalog_content) _
  · refine ⟨((g.pdf_pre ++ str "%PDF-1.5\n") ++ obj_framing 1 catalog_content).length, ?_, ?_⟩
    · show (((g.offsets ++ [g.pdf.length]).set 0 (g.pdf_pre ++ str "%PDF-1.5\n").length).set 1
          ((g.pdf_pre ++ str "%PDF-1.5\n") ++ obj_framing 1 catalog_content).length)[1]? =
        some ((g.pdf_pre ++ str "%PDF-1.5\n") ++ obj_framing 1 catalog_content).length
      rw [List.getElem?_set_eq_of_lt _ (by simp only [List.length_set, List.length_append, List.length_cons, List.length_nil]; omega)]
    · show obj_framing 2 (pages_obj_content g.pages) <+:
        ((((g.pdf_pre ++ str "%PDF-1.5\n") ++ obj_framing 1 catalog_content) ++
          obj_framing 2 (pages_obj_content g.pages)).drop
            ((g.pdf_pre ++ str "%PDF-1.5\n") ++ obj_framing 1 catalog_content).length)
      have hd : ((((g.pdf_pre ++ str "%PDF-1.5\n") ++ obj_framing 1 catalog_content) ++
          obj_framing 2 (pages_obj_content g.pages)).drop
            ((g.pdf_pre ++ str "%PDF-1.5\n") ++ obj_framing 1 catalog_content).length) =
          obj_framing 2 (pages_obj_content g.pages) := by simp
      rw [hd]
  · exact all_objs_framed_set01 (all_objs_framed_set01 hg1objs 0 _ (by omega)) 1 _ (by omega)
  · exact offsets_mono_set01 (offsets_mono_set01 hg1mono 0 _ (by omega)) 1 _ (by omega)
  · show 2 ≤ (((g.offsets ++ [g.pdf.length]).set 0 (g.pdf_pre ++ str "%PDF-1.5\n").length).set 1
      ((g.pdf_pre ++ str "%PDF-1.5\n") ++ obj_framing 1 catalog_content).length).length
    simp only [List.length_set, List.length_append, List.length_cons, List.length_nil]
    omega
  · intro hnil
    have hlen := hl0 hnil
    show (((g.offsets ++ [g.pdf.length]).set 0 (g.pdf_pre ++ str "%PDF-1.5\n").length).set 1
      ((g.pdf_pre ++ str "%PDF-1.5\n") ++ obj_framing 1 catalog_content).length).length = 3
    simp only [List.length_set, List.length_append, List.length_cons, List.length_nil]
    omega
  · intro hne
    have hlen := hl1 hne
    show (((g.offsets ++ [g.pdf.length]).set 0 (g.pdf_pre ++ str "%PDF-1.5\n").length).set 1
      ((g.pdf_pre ++ str "%PDF-1.5\n") ++ obj_framing 1 catalog_content).length).length =
      2 * g.pages.length + 2
    simp only [List.length_set, List.length_append, List.length_cons, List.length_nil]
    omega
  · exact fun k pk hk => hpval k pk hk
  · intro k pk hk
    have hpk := hpval k pk hk
    obtain ⟨w, hh, hf⟩ := hpobj k pk hk
    refine ⟨w, hh, ?_⟩
    have hf2 := framed_at_append (framed_at_snoc hf g.pdf.length)
      (obj_framing (g.offsets.length + 1) (stream_content g.content_stream))
    have hf3 := framed_at_set hf2 0 (g.pdf_pre ++ str "%PDF-1.5\n").length (by omega)
    exact framed_at_set hf3 1
      ((g.pdf_pre ++ str "%PDF-1.5\n") ++ obj_framing 1 catalog_content).length (by omega)
  · intro k hk
    have hk2 : k < g.pages.length := hk
    by_cases hlt : k + 1 < g.pages.length
    · obtain ⟨s, hf⟩ := hcobj k hlt
      have hf2 := framed_at_append (framed_at_snoc hf g.pdf.length)
        (obj_framing (g.offsets.length + 1) (stream_content g.content_stream))
      have hf3 := framed_at_set hf2 0 (g.pdf_pre ++ str "%PDF-1.5\n").length (by omega)
      exact ⟨s, framed_at_set hf3 1
        ((g.pdf_pre ++ str "%PDF-1.5\n") ++ obj_framing 1 catalog_content).length (by omega)⟩
    · have hne : g.pages ≠ [] := by
        intro hc
        rw [hc] at hk2
        simp at hk2
      have hlen := hl1 hne
      have hkeq : 2 * k + 3 = g.offsets.length := by omega
      have hkeq4 : 2 * k + 4 = g.offsets.length + 1 := by omega
      refine ⟨g.content_stream, ?_⟩
      rw [hkeq, hkeq4]
      have hf0 := framed_at_new g.offsets g.pdf (stream_content g.content_stream)
      have hf3 := framed_at_set hf0 0 (g.pdf_pre ++ str "%PDF-1.5\n").length (by omega)
      exact framed_at_set hf3 1
        ((g.pdf_pre ++ str "%PDF-1.5\n") ++ obj_framing 1 catalog_content).length (by omega)

@[simp] theorem push_ops_pages (g : Generator) (ops : Bytes) :
    (g.push_content_ops ops).pages = g.pages := rfl

@[simp] theorem push_ops_offsets (g : Generator) (ops : Bytes) :
    (g.push_content_ops ops).offsets = g.offsets := rfl

theorem PostInv.finalize {g : Generator} (h : PostInv g) : PostInv g.finalize_pdf := by
  obtain ⟨hh, hpo, ho0, ho1, hobjs, hmono, h2, hl0, hl1, hpval, hpobj, hcobj⟩ := h
  obtain ⟨t, hext⟩ := finalize_pdf_ext g
  refine ⟨hh, hpo, ho0, ho1, ?_, hmono, h2, hl0, hl1, hpval, ?_, ?_⟩
  · intro i off hi hoff
    obtain ⟨c, hc⟩ := hobjs i off hi hoff
    rw [show g.finalize_pdf.pdf = g.pdf ++ t from hext]
    exact ⟨c, pfx_drop_extend (obj_framing_ne_nil _ _) hc t⟩
  · intro k pk hk
    obtain ⟨w, hhh, hf⟩ := hpobj k pk hk
    have hf2 := framed_at_append hf t
    rw [← hext] at hf2
    exact ⟨w, hhh, hf2⟩
  · intro k hk
    obtain ⟨s, hf⟩ := hcobj k hk
    have hf2 := framed_at_append hf t
    rw [← hext] at hf2
    exact ⟨s, hf2⟩

theorem add_page_pages_length (g : Generator) (wpts hpts : Bytes) :
    (g.add_page_with_size wpts hpts).pages.length = g.pages.length + 1 := by
  by_cases hpg : 0 < g.pages.length
  · simp [Generator.add_page_with_size, if_pos hpg]
  · simp [Generator.add_page_with_size, if_neg hpg]

theorem run_pages_length (cmds : List Cmd) : (run cmds).pages.length = numPages cmds := by
  have main : ∀ (l : List Cmd) (g : Generator),
      (l.foldl Cmd.step g).pages.length = g.pages.length + numPages l := by
    intro l
    induction l with
    | nil => intro g; simp [numPages]
    | cons c l ih =>
        intro g
        rw [List.foldl_cons, ih]
        cases c with
        | page wp hp =>
            show (g.add_page_with_size wp hp).pages.length + numPages l = _
            rw [add_page_pages_length]
            simp [numPages, List.countP_cons]
            omega
        | shape ops =>
            show (g.push_content_ops ops).pages.length + numPages l = _
            rw [push_ops_pages]
            simp [numPages, List.countP_cons]
  have hmn := main cmds Generator.new
  simpa [run, Generator.new] using hmn

theorem postInv_finalized (cmds : List Cmd) : PostInv (finalized cmds) :=
  (initialize_inv (buildInv_run cmds)).finalize

/-- C1.  Cross-reference table correctness: in the finalized document of
any build trace, every offset slot yields an 'n'-flagged xref line, the
offset printed there for a main-buffer object is the recorded offset
shifted by the full pre-page buffer length, and the final concatenated
bytes (`pdf_pre ++ pdf`) at that printed offset begin with "N 0 obj" for
the slot's object number N = i + 1. -/
theorem xref_table_correct (cmds : List Cmd) (i off : Nat)
    (hoff : (finalized cmds).offsets[i]? = some off) :
    xref_flag i off = 'n' ∧
    (2 ≤ i → xref_adjusted (finalized cmds).pre_offset i off =
      off + (finalized cmds).pdf_pre.length) ∧
    obj_head (i + 1) <+:
      ((finalized cmds).output_bytes).drop
        (xref_adjusted (finalized cmds).pre_offset i off) := by
  obtain ⟨⟨t, hhdr⟩, hpo, ⟨off0, ho0, hb0, hp0⟩, ⟨off1, ho1, hp1⟩, hobjs, hmono, h2,
    hl0, hl1, hpval, hpobj, hcobj⟩ := postInv_finalized cmds
  match i with
  | 0 =>
      have hoeq : off = off0 := by
        rw [hoff] at ho0
        exact Option.some_inj.mp ho0
      subst hoeq
      refine ⟨by simp [xref_flag, N_OBJ_RESERVED], by omega, ?_⟩
      have hadj : xref_adjusted (finalized cmds).pre_offset 0 off = off := by
        simp [xref_adjusted, N_OBJ_RESERVED]
      rw [hadj, Generator.output_bytes,
        List.drop_append_of_le_length (Nat.le_of_lt hb0)]
      exact pfx_append_right hp0 _
  | 1 =>
      have hoeq : off = off1 := by
        rw [hoff] at ho1
        exact Option.some_inj.mp ho1
      subst hoeq
      have hb1 : off < (finalized cmds).pdf_pre.length :=
        drop_lt_of_pfx (obj_framing_ne_nil _ _) hp1
      refine ⟨by simp [xref_flag, N_OBJ_RESERVED], by omega, ?_⟩
      have hadj : xref_adjusted (finalized cmds).pre_offset 1 off = off := by
        simp [xref_adjusted, N_OBJ_RESERVED]
      rw [hadj, Generator.output_bytes,
        List.drop_append_of_le_length (Nat.le_of_lt hb1)]
      exact pfx_append_right ((obj_head_framing 2 _).trans hp1) _
  | (j + 2) =>
      have h2i : 2 ≤ j + 2 := by omega
      have hil := (List.getElem?_eq_some.mp hoff).1
      have hbd := off_lt_of_framed hobjs h2i hoff
      have hposgt : 2 < j + 2 → 0 < off := by
        intro hgt
        obtain ⟨o2, ho2⟩ : ∃ v, (finalized cmds).offsets[2]? = some v :=
          ⟨_, List.getElem?_eq_getElem (by omega)⟩
        have := hmono 2 (j + 2) o2 off (by omega) (by omega) ho2 hoff
        omega
      have hflag : xref_flag (j + 2) off = 'n' := by
        rw [xref_flag, if_neg]
        rintro ⟨hz, hgt⟩
        rw [N_OBJ_RESERVED] at hgt
        have := hposgt (by omega)
        omega
      have hcond : N_OBJ_RESERVED ≤ j + 2 ∧ (0 < off ∨ j + 2 = N_OBJ_RESERVED) := by
        rw [N_OBJ_RESERVED]
        rcases Nat.eq_zero_or_pos j with hj | hj
        · subst hj
          exact ⟨by omega, Or.inr rfl⟩
        · exact ⟨by omega, Or.inl (hposgt (by omega))⟩
      have hadj : xref_adjusted (finalized cmds).pre_offset (j + 2) off =
          off + (finalized cmds).pdf_pre.length := by
        rw [xref_adjusted, if_pos hcond, hpo]
      refine ⟨hflag, fun _ => hadj, ?_⟩
      rw [hadj, Generator.output_bytes,
        Nat.add_comm off (List.length (finalized cmds).pdf_pre)]
      have hdrop : ((finalized cmds).pdf_pre ++ (finalized cmds).pdf).drop
          ((finalized cmds).pdf_pre.length + off) = (finalized cmds).pdf.drop off := by
        simp [List.drop_append]
      rw [hdrop]
      obtain ⟨c, hc⟩ := hobjs (j + 2) off h2i hoff
      exact (obj_head_framing _ _).trans hc

/-- A small two-page build trace used to instantiate the document-level
theorems on concrete bytes. -/
def demo_cmds : List Cmd :=
  [Cmd.page (str "612") (str "792"), Cmd.shape (str "1 0 0 RG\n10 10 m\n"),
   Cmd.page (str "200") (str "300")]

set_option maxRecDepth 100000 in
/-- C1 witness: the fifth xref slot of the finalized demo document (object
5, the second page object) is 'n'-flagged, its printed offset is the
recorded one shifted by the pre-page buffer, and the bytes there start
with "5 0 obj". -/
theorem xref_table_correct_witness :
    xref_flag 4 154 = 'n' ∧
    (2 ≤ 4 → xref_adjusted (finalized demo_cmds).pre_offset 4 154 =
      154 + (finalized demo_cmds).pdf_pre.length) ∧
    obj_head 5 <+:
      ((finalized demo_cmds).output_bytes).drop
        (xref_adjusted (finalized demo_cmds).pre_offset 4 154) :=
  xref_table_correct demo_cmds 4 154 (by decide)

theorem ifx_of_append_self (u m : Bytes) : m <:+: u ++ m := ⟨u, [], by simp⟩

theorem output_drop_main (g : Generator) (off : Nat) :
    g.output_bytes.drop (off + g.pdf_pre.length) = g.pdf.drop off := by
  rw [Generator.output_bytes, Nat.add_comm]
  simp [List.drop_append]

theorem finalize_eof (g : Generator) : str "%%EOF\n" <:+ g.finalize_pdf.pdf :=
  sfx_append_left (by decide) _

theorem ifx_mid (u m v : Bytes) : m <:+: u ++ (m ++ v) := ⟨u, v, by simp⟩

theorem finalize_size_ifx (g : Generator) :
    (str "/Size " ++ str (Nat.repr (g.offsets.length + 1))) <:+: g.finalize_pdf.pdf := by
  have hsplit : str "<< /Root 1 0 R /Size " = str "<< /Root 1 0 R " ++ str "/Size " := by
    decide
  simp only [Generator.finalize_pdf]
  rw [hsplit]
  simp only [List.append_assoc]
  rw [← List.append_assoc (str "/Size ") (str (Nat.repr (g.offsets.length + 1)))]
  exact ifx_append_left (ifx_append_left (ifx_append_left (ifx_append_left (ifx_append_left
    (ifx_append_left (ifx_append_left (ifx_mid _ _ _) _) _) _) _) _) _) _

/-- C2.  The finalized document of any trace with at least one page starts
with the "%PDF-1.5" header line, ends with the "%%EOF" line, has one
offset-table entry for each of the two reserved objects plus the two
objects appended per page, and its trailer carries `/Size` equal to that
entry count plus one (the free-list head). -/
theorem finalized_document_invariant (cmds : List Cmd) (hp : 1 ≤ numPages cmds) :
    str "%PDF-1.5\n" <+: (run cmds).write_pdf ∧
    str "%%EOF\n" <:+ (run cmds).write_pdf ∧
    (finalized cmds).offsets.length = 2 + 2 * numPages cmds ∧
    (str "/Size " ++ str (Nat.repr (2 + 2 * numPages cmds + 1))) <:+:
      (run cmds).write_pdf := by
  have hpost := postInv_finalized cmds
  have hpl : (finalized cmds).pages.length = numPages cmds := run_pages_length cmds
  have hne : (finalized cmds).pages ≠ [] := by
    intro hc
    rw [hc] at hpl
    simp at hpl
    omega
  have hlen := hpost.olen1 hne
  have hsize : (finalized cmds).offsets.length = 2 + 2 * numPages cmds := by
    rw [hlen, hpl]
    omega
  refine ⟨?_, ?_, hsize, ?_⟩
  · obtain ⟨t, hhdr⟩ := hpost.hdr
    show str "%PDF-1.5\n" <+: (finalized cmds).pdf_pre ++ (finalized cmds).pdf
    rw [hhdr, List.append_assoc]
    exact ⟨t ++ (finalized cmds).pdf, rfl⟩
  · show str "%%EOF\n" <:+ (finalized cmds).pdf_pre ++ (finalized cmds).pdf
    exact sfx_append_left (finalize_eof ((run cmds).initialize_pdf)) _
  · have hifx := finalize_size_ifx ((run cmds).initialize_pdf)
    have hnum : ((run cmds).initialize_pdf).offsets.length + 1 =
        2 + 2 * numPages cmds + 1 := by
      rw [show ((run cmds).initialize_pdf).offsets.length =
        (finalized cmds).offsets.length from rfl, hsize]
    rw [hnum] at hifx
    show (str "/Size " ++ str (Nat.repr (2 + 2 * numPages cmds + 1))) <:+:
      (finalized cmds).pdf_pre ++ (finalized cmds).pdf
    exact ifx_append_left hifx _

set_option maxRecDepth 100000 in
/-- C2 witness: the invariant instantiated on the concrete two-page demo
document. -/
theorem finalized_document_invariant_witness :
    str "%PDF-1.5\n" <+: (run demo_cmds).write_pdf ∧
    str "%%EOF\n" <:+ (run demo_cmds).write_pdf ∧
    (finalized demo_cmds).offsets.length = 2 + 2 * numPages demo_cmds ∧
    (str "/Size " ++ str (Nat.repr (2 + 2 * numPages demo_cmds + 1))) <:+:
      (run demo_cmds).write_pdf :=
  finalized_document_invariant demo_cmds (by decide)

/-- C3.  Page registration fidelity in the finalized document of any
trace: the page list has one entry per page directive; page object
numbers are 3, 5, 7, … in declaration order; each page object's bytes
declare `/Contents` referencing the object numbered one above its own;
that next object is a content-stream object; each page's content-stream
object starts strictly before the following page's page object in the
final byte order; and the Pages object (number 2) carries the `/Kids`
array built from the page numbers in declaration order with `/Count`
equal to the page count. -/
theorem page_registration_fidelity (cmds : List Cmd) :
    (finalized cmds).pages.length = numPages cmds ∧
    (∀ (k pk : Nat), (finalized cmds).pages[k]? = some pk → pk = 2 * k + 3) ∧
    (∀ (k pk : Nat), (finalized cmds).pages[k]? = some pk → ∃ wpts hpts off,
      (finalized cmds).offsets[pk - 1]? = some off ∧
      obj_framing pk (page_content wpts hpts (pk + 1)) <+:
        ((finalized cmds).output_bytes).drop (off + (finalized cmds).pdf_pre.length)) ∧
    (∀ (k pk : Nat), (finalized cmds).pages[k]? = some pk → ∃ s off,
      (finalized cmds).offsets[pk]? = some off ∧
      obj_framing (pk + 1) (stream_content s) <+:
        ((finalized cmds).output_bytes).drop (off + (finalized cmds).pdf_pre.length)) ∧
    (∀ (k pk pk1 offc offp : Nat), (finalized cmds).pages[k]? = some pk →
      (finalized cmds).pages[k + 1]? = some pk1 →
      (finalized cmds).offsets[pk]? = some offc →
      (finalized cmds).offsets[pk1 - 1]? = some offp → offc < offp) ∧
    (∃ off, (finalized cmds).offsets[1]? = some off ∧
      obj_framing 2 (pages_obj_content (finalized cmds).pages) <+:
        ((finalized cmds).output_bytes).drop off) := by
  have hpost := postInv_finalized cmds
  refine ⟨run_pages_length cmds, hpost.pval, ?_, ?_, ?_, ?_⟩
  · intro k pk hk
    obtain ⟨w, hh, off, hoff, hp⟩ := hpost.pobj k pk hk
    refine ⟨w, hh, off, hoff, ?_⟩
    rw [output_drop_main]
    exact hp
  · intro k pk hk
    have hpk := hpost.pval k pk hk
    have hklt := (List.getElem?_eq_some.mp hk).1
    obtain ⟨s, off, hoff, hp⟩ := hpost.cobj k hklt
    refine ⟨s, off, ?_, ?_⟩
    · rw [hpk]
      exact hoff
    · rw [output_drop_main, hpk]
      exact hp
  · intro k pk pk1 offc offp hk hk1 hoffc hoffp
    have hpk := hpost.pval k pk hk
    have hpk1 := hpost.pval (k + 1) pk1 hk1
    exact hpost.mono pk (pk1 - 1) offc offp (by omega) (by omega) hoffc hoffp
  · obtain ⟨off, hoff, hp⟩ := hpost.o1
    have hb := drop_lt_of_pfx (obj_framing_ne_nil _ _) hp
    refine ⟨off, hoff, ?_⟩
    rw [Generator.output_bytes, List.drop_append_of_le_length (Nat.le_of_lt hb)]
    exact pfx_append_right hp _

set_option maxRecDepth 100000 in
/-- C3 witness: in the demo document the first page object is number 3,
and object 4 right after it is its content stream, placed before the
second page object in byte order. -/
theorem page_registration_fidelity_witness :
    (3 : Nat) = 2 * 0 + 3 ∧
    (∃ s off, (finalized demo_cmds).offsets[3]? = some off ∧
      obj_framing 4 (stream_content s) <+:
        ((finalized demo_cmds).output_bytes).drop
          (off + (finalized demo_cmds).pdf_pre.length)) ∧
    87 < 154 :=
  ⟨(page_registration_fidelity demo_cmds).2.1 0 3 (by decide),
   (page_registration_fidelity demo_cmds).2.2.2.1 0 3 (by decide),
   (page_registration_fidelity demo_cmds).2.2.2.2.1 0 3 5 87 154 (by decide) (by decide)
     (by decide) (by decide)⟩

end Shapdf
